import Mathlib

/-!
Verification development for fetch_current_week.py, a script that computes
the current week window, builds one URL per day, fetches each day page in a
browser session, extracts course rows from the rendered markup with
BeautifulSoup CSS selectors, and prints a report.

The rendered markup is modelled as an already-parsed DOM forest (the result
of BeautifulSoup(html, "html.parser")): a node is an element with a tag
name, a class list (the multi-valued class attribute), other attributes as
an association list, and children, or a text node.  Selection, text
extraction and attribute access are embedded from the BeautifulSoup
operations the script calls.  A bs4 Tag is always truthy (Tag defines
a boolean conversion that returns True even for an empty tag), so the
Python truthiness tests on select_one results are embedded as isSome tests.
-/

set_option autoImplicit false

namespace FetchEdt

/-- A node of the parsed markup: an element with tag, class list, attribute
list and children, or a text node. -/
inductive Node where
  | elem (tag : String) (classes : List String) (attrs : List (String × String)) (children : List Node)
  | text (s : String)

/-- Whether a node is an element with the given tag name (the CSS selector
consisting of a bare tag name, as in soup.select with argument tr). -/
def isTag (t : String) : Node → Bool
  | .elem tg _ _ _ => tg == t
  | .text _ => false

/-- Whether a node is an element with the given tag carrying the given CSS
class (a selector of the shape tag.Class, as in td.TCase). -/
def hasTagClass (t c : String) : Node → Bool
  | .elem tg cs _ _ => tg == t && cs.contains c
  | .text _ => false

mutual
/-- All nodes of the subtree rooted at a node (the node included) that
satisfy the predicate, in document (preorder) order. -/
def selectAllNode (p : Node → Bool) : Node → List Node
  | .elem tg cs ats ch => (if p (.elem tg cs ats ch) then [.elem tg cs ats ch] else []) ++ selectAllList p ch
  | .text s => if p (.text s) then [.text s] else []

/-- All nodes of a forest satisfying the predicate, in document order. -/
def selectAllList (p : Node → Bool) : List Node → List Node
  | [] => []
  | n :: ns => selectAllNode p n ++ selectAllList p ns
end

/-- The bs4 row.select_one on a simple selector: the first strict descendant
of the node, in document order, satisfying the predicate. -/
def selectOne (p : Node → Bool) : Node → Option Node
  | .elem _ _ _ ch => (selectAllList p ch).head?
  | .text _ => none

mutual
/-- The first match, in document order, of the descendant selector
div.Teams a inside a subtree: an anchor element having a strict ancestor
that is a div with class Teams.  The flag records whether such an ancestor
has already been passed on the way down. -/
def selectTeamsNode (inside : Bool) : Node → Option Node
  | .elem tg cs ats ch =>
      if inside && tg == "a" then some (.elem tg cs ats ch)
      else selectTeamsList (inside || (tg == "div" && cs.contains "Teams")) ch
  | .text _ => none

/-- The first match of div.Teams a over a forest, in document order. -/
def selectTeamsList (inside : Bool) : List Node → Option Node
  | [] => none
  | n :: ns =>
      match selectTeamsNode inside n with
      | some m => some m
      | none => selectTeamsList inside ns
end

/-- The bs4 row.select_one with selector div.Teams a: search the strict
descendants of the row, the row itself counting as a possible ancestor for
the div.Teams part. -/
def selectTeams : Node → Option Node
  | .elem tg cs _ ch => selectTeamsList (tg == "div" && cs.contains "Teams") ch
  | .text _ => none

/-- The whitespace stripping applied by bs4 stripped_strings (the Python
str.strip): drop leading and trailing whitespace characters. -/
def strip (s : String) : String :=
  ⟨((s.data.dropWhile Char.isWhitespace).reverse.dropWhile Char.isWhitespace).reverse⟩

mutual
/-- The bs4 get_text with strip: the concatenation, in document order, of
the whitespace-stripped text segments of the subtree. -/
def getTextNode : Node → String
  | .elem _ _ _ ch => getTextList ch
  | .text s => strip s

/-- Concatenation of the trimmed text segments of a forest. -/
def getTextList : List Node → String
  | [] => ""
  | n :: ns => getTextNode n ++ getTextList ns
end

/-- Attribute lookup on an element (the bs4 subscript access guarded by
has_attr); none when the node has no such attribute. -/
def getAttr (k : String) : Node → Option String
  | .elem _ _ ats _ => ats.lookup k
  | .text _ => none

/-- CSS selector for the course-name cell (td.TCase). -/
def CSS_COURS : String × String := ("td", "TCase")
/-- CSS selector for the room cell (td.TCSalle). -/
def CSS_SALLE : String × String := ("td", "TCSalle")
/-- CSS selector for the start-time cell (td.TChdeb). -/
def CSS_DEBUT : String × String := ("td", "TChdeb")
/-- CSS selector for the end-time cell (td.TChfin). -/
def CSS_FIN : String × String := ("td", "TChfin")
/-- CSS selector for the instructor cell (td.TCProf). -/
def CSS_PROF : String × String := ("td", "TCProf")

/-- One extracted course record, the dict built by parse_courses. -/
structure Cours where
  nom_cours : String
  heure_debut : String
  heure_fin : String
  salle : String
  prof : String
  teams : String
deriving DecidableEq, Repr

/-- The body of the parse_courses loop for one row: none when the row has
no course-name cell (the row is skipped), otherwise the record assembled
from the independent sub-element lookups, each absent sub-element giving
the empty string. -/
def parse_row (row : Node) : Option Cours :=
  match selectOne (hasTagClass CSS_COURS.1 CSS_COURS.2) row with
  | none => none
  | some td_cours =>
      let nom_cours := getTextNode td_cours
      let salle := match selectOne (hasTagClass CSS_SALLE.1 CSS_SALLE.2) row with
        | some td => getTextNode td
        | none => ""
      let heure_debut := match selectOne (hasTagClass CSS_DEBUT.1 CSS_DEBUT.2) row with
        | some td => getTextNode td
        | none => ""
      let heure_fin := match selectOne (hasTagClass CSS_FIN.1 CSS_FIN.2) row with
        | some td => getTextNode td
        | none => ""
      let prof := match selectOne (hasTagClass CSS_PROF.1 CSS_PROF.2) row with
        | some td => getTextNode td
        | none => ""
      let lien_teams := match selectTeams row with
        | some a =>
            match getAttr "href" a with
            | some h => h
            | none => ""
        | none => ""
      some ⟨nom_cours, heure_debut, heure_fin, salle, prof, lien_teams⟩

/-- The parse_courses function: select every tr of the document, keep, in
document order, one record per row that parse_row accepts. -/
def parse_courses (soup : List Node) : List Cours :=
  (selectAllList (isTag "tr") soup).filterMap parse_row

/-!
Date arithmetic.  A calendar date is embedded as its proleptic Gregorian
ordinal (the Python date.toordinal value, an integer counting days with
0001-01-01 as day 1, a Monday).  date.weekday gives Monday = 0, so the
weekday of ordinal o is (o - 1) mod 7, and the dateutil expression
d + relativedelta(weekday=MO(-1)) — the most recent Monday, d itself when
d is a Monday — is d minus its weekday.
-/

/-- The Python date.weekday of an ordinal: 0 for Monday up to 6 for
Sunday. -/
def weekday (o : Int) : Int := (o - 1) % 7

/-- The get_monday_of_current_week computation, parameterized by the
ordinal of the reference date that the script reads from the clock:
d + relativedelta(weekday=MO(-1)). -/
def get_monday_of_current_week (d : Int) : Int := d - weekday d

/-- The days_of_week list built in main: monday + timedelta(days=i) for i
in range(7). -/
def days_of_week (monday : Int) : List Int := (List.range 7).map (fun i => monday + i)

/-- A calendar date as year, month and day numbers, the fields the URL
builder reads from a Python date object. -/
structure Date where
  year : Nat
  month : Nat
  day : Nat
deriving DecidableEq, Repr

/-- The text of URL_TEMPLATE before its single substitution point, the
placeholder named date. -/
def URL_TEMPLATE_PRE : String :=
  "https://ws-edt-cd.wigorservices.net/WebPsDyn.aspx?action=posEDTLMS&serverID=C&Tel=lelia.kozan&date="

/-- The text of URL_TEMPLATE after its single substitution point. -/
def URL_TEMPLATE_POST : String := "&hashURL=..."

/-- The date string interpolated by build_url_for_date: month/day/year,
each number in plain decimal (Python str of an int, so no leading
zeros). -/
def date_str (dt : Date) : String :=
  toString dt.month ++ "/" ++ toString dt.day ++ "/" ++ toString dt.year

/-- The build_url_for_date function: URL_TEMPLATE.format with the date
string at the single placeholder. -/
def build_url_for_date (dt : Date) : String :=
  URL_TEMPLATE_PRE ++ date_str dt ++ URL_TEMPLATE_POST

/-!
The main routine.  Browser effects are embedded as oracles: the login
sequence (goto, fill, fill, click, wait) is a single value that either
succeeds or raises, and the per-day navigation plus page.content is a
function from the day to either the rendered forest or an error.  Days are
identified by their isoformat strings, which is all main uses them for
after building the URL.  Python exceptions become the error branch of
Except; the report lines are the strings printed after the with-block, and
browser_closed records whether execution reached the browser.close() call
placed after the loop inside the with-block.
-/

/-- One record of the aggregated list all_cours_week: the parse_courses
dict after main has added the date key. -/
structure CoursD where
  date : String
  nom_cours : String
  heure_debut : String
  heure_fin : String
  salle : String
  prof : String
  teams : String
deriving DecidableEq, Repr

/-- The loop in main that adds the date of the day to each course dict of
one page. -/
def attach_date (d : String) (cs : List Cours) : List CoursD :=
  cs.map fun c => ⟨d, c.nom_cours, c.heure_debut, c.heure_fin, c.salle, c.prof, c.teams⟩

/-- The header line printed before the per-course lines. -/
def report_header : String := "=== COURS DE LA SEMAINE EN COURS ===\n"

/-- The fixed text template of one printed course line, with every field
literally interpolated. -/
def format_line (c : CoursD) : String :=
  "- " ++ c.date ++ " : " ++ c.heure_debut ++ " - " ++ c.heure_fin ++ " | " ++ c.nom_cours
    ++ " (Salle: " ++ c.salle ++ ", Prof: " ++ c.prof ++ ", Teams: " ++ c.teams ++ ")"

/-- The printed report: the header line, then one line per record in the
order received. -/
def report (all : List CoursD) : List String :=
  report_header :: all.map format_line

/-- The aggregation performed by the per-day loop on the success path:
for each day in order, parse its page, attach the date, and extend the
accumulated list. -/
def all_cours_week (days : List (String × List Node)) : List CoursD :=
  days.flatMap fun dh => attach_date dh.1 (parse_courses dh.2)

/-- The observable outcome of one run of main: the lines printed, whether
the explicit browser.close() step was executed, and whether the process
finished normally (exit status 0) rather than aborting on an uncaught
error. -/
structure MainResult where
  printed : List String
  browser_closed : Bool
  exit_ok : Bool
deriving DecidableEq, Repr

/-- The per-day loop of main: fetch each day in order; the first failing
fetch raises out of the loop, discarding the records of the days already
fetched; on success the dated records of all days are accumulated in
order. -/
def fetch_week (fetch : String → Except String (List Node)) : List String → Except String (List CoursD)
  | [] => .ok []
  | d :: ds =>
      match fetch d with
      | .error e => .error e
      | .ok html =>
          match fetch_week fetch ds with
          | .error e => .error e
          | .ok rest => .ok (attach_date d (parse_courses html) ++ rest)

/-- The main routine: login, then the per-day loop, then browser.close(),
then printing.  An error in the login steps or in the loop propagates
uncaught: nothing is printed, the close step is skipped, and the process
exits abnormally. -/
def run_main (login : Except String Unit) (fetch : String → Except String (List Node))
    (days : List String) : MainResult :=
  match login with
  | .error _ => ⟨[], false, false⟩
  | .ok _ =>
      match fetch_week fetch days with
      | .error _ => ⟨[], false, false⟩
      | .ok allc => ⟨report allc, true, true⟩

/-!
Concrete example documents used to instantiate the theorems.
-/

/-- A course-name cell (td.TCase) holding the given text. -/
def tdCase (txt : String) : Node := .elem "td" ["TCase"] [] [.text txt]

/-- A table row containing only a course-name cell. -/
def exRowOnlyName : Node := .elem "tr" [] [] [tdCase "HEP COOPERATION"]

/-- A table row with all six sub-elements present. -/
def exRowFull : Node :=
  .elem "tr" [] []
    [tdCase "HEP COOPERATION",
     .elem "td" ["TChdeb"] [] [.text "08:00"],
     .elem "td" ["TChfin"] [] [.text "09:30"],
     .elem "td" ["TCSalle"] [] [.text "B204"],
     .elem "td" ["TCProf"] [] [.text "Dr. X"],
     .elem "div" ["Teams"] [] [.elem "a" [] [("href", "https://teams.example/x")] [.text "Teams"]]]

/-- A table row whose course-name cell is present but has no contents. -/
def exRowEmptyName : Node := .elem "tr" [] [] [.elem "td" ["TCase"] [] []]

/-- A table row whose meeting-link anchor is present but carries no href
attribute. -/
def exRowNoHref : Node :=
  .elem "tr" [] [] [tdCase "HEP COOPERATION", .elem "div" ["Teams"] [] [.elem "a" [] [] [.text "Teams"]]]

/-- A page whose table has two course rows. -/
def exDocTwoRows : List Node :=
  [.elem "table" [] [] [.elem "tr" [] [] [tdCase "Maths"], .elem "tr" [] [] [tdCase "Physique"]]]

/-- A page whose only row has no course-name cell. -/
def exDocNoCourse : List Node :=
  [.elem "table" [] [] [.elem "tr" [] [] [.elem "td" ["TCSalle"] [] [.text "B1"]]]]

/-- A fetch oracle whose first day succeeds with two course rows and whose
second day raises a navigation error. -/
def exFetch : String → Except String (List Node) :=
  fun d => if d = "2025-01-06" then .ok exDocTwoRows else .error "navigation timeout"

/-!
Helper functions used to state the extraction theorems.
-/

/-- The record parse_row assembles for a row that has a course-name cell. -/
def row_record (r : Node) : Cours := (parse_row r).getD ⟨"", "", "", "", "", ""⟩

/-- Whether a row has a course-name cell, the sole inclusion criterion of
the parse_courses loop. -/
def has_course_cell (r : Node) : Bool :=
  (selectOne (hasTagClass CSS_COURS.1 CSS_COURS.2) r).isSome

/-!
Theorems.
-/

lemma parse_row_eq_none (r : Node)
    (h : selectOne (hasTagClass CSS_COURS.1 CSS_COURS.2) r = none) : parse_row r = none := by
  simp [parse_row, h]

lemma parse_row_eq_some (r td : Node)
    (h : selectOne (hasTagClass CSS_COURS.1 CSS_COURS.2) r = some td) :
    parse_row r = some (row_record r) := by
  simp [row_record, parse_row, h]

lemma filterMap_parse_row_eq (l : List Node) :
    l.filterMap parse_row = (l.filter has_course_cell).map row_record := by
  induction l with
  | nil => rfl
  | cons r rs ih =>
      cases h : selectOne (hasTagClass CSS_COURS.1 CSS_COURS.2) r with
      | none =>
          rw [List.filterMap_cons, parse_row_eq_none r h]
          simp [List.filter_cons, has_course_cell, h, ih]
      | some td =>
          rw [List.filterMap_cons, parse_row_eq_some r td h]
          simp [List.filter_cons, has_course_cell, h, ih]

/-- C1: parse_courses produces exactly one record per table row having a
course-name cell, in document order of those rows; markup whose rows have
no course-name cell yields the empty list; and a row containing only a
course-name cell yields the record whose name is that cell's stripped text
and whose every other field is the empty string. -/
theorem parse_courses_one_record_per_course_row (soup : List Node) :
    parse_courses soup
        = ((selectAllList (isTag "tr") soup).filter has_course_cell).map row_record
      ∧ ((selectAllList (isTag "tr") soup).filter has_course_cell = [] → parse_courses soup = [])
      ∧ (∀ r ∈ selectAllList (isTag "tr") soup, ∀ td : Node,
          selectOne (hasTagClass CSS_COURS.1 CSS_COURS.2) r = some td →
          selectOne (hasTagClass CSS_SALLE.1 CSS_SALLE.2) r = none →
          selectOne (hasTagClass CSS_DEBUT.1 CSS_DEBUT.2) r = none →
          selectOne (hasTagClass CSS_FIN.1 CSS_FIN.2) r = none →
          selectOne (hasTagClass CSS_PROF.1 CSS_PROF.2) r = none →
          selectTeams r = none →
          parse_row r = some ⟨getTextNode td, "", "", "", "", ""⟩) := by
  refine ⟨filterMap_parse_row_eq _, ?_, ?_⟩
  · intro h
    show (selectAllList (isTag "tr") soup).filterMap parse_row = []
    rw [filterMap_parse_row_eq, h]
    rfl
  · intro r _ td hc hs hd hf hp ht
    simp [parse_row, hc, hs, hd, hf, hp, ht]

/-- Witness for C1 at a one-row document whose single row holds only a
course-name cell. -/
theorem parse_courses_one_record_per_course_row_w :
    parse_row exRowOnlyName = some ⟨"HEP COOPERATION", "", "", "", "", ""⟩ :=
  (parse_courses_one_record_per_course_row [exRowOnlyName]).2.2 exRowOnlyName
    (List.Mem.head _) (tdCase "HEP COOPERATION") rfl rfl rfl rfl rfl rfl

/-- C2: for any reference ordinal, the week window is the 7 consecutive
ascending dates starting at the computed Monday; that Monday has weekday 0,
lies at most 6 days before the reference date, never after it, and equals
it when the reference date is itself a Monday. -/
theorem current_week_window_seven_days (d : Int) :
    days_of_week (get_monday_of_current_week d)
        = [get_monday_of_current_week d, get_monday_of_current_week d + 1,
           get_monday_of_current_week d + 2, get_monday_of_current_week d + 3,
           get_monday_of_current_week d + 4, get_monday_of_current_week d + 5,
           get_monday_of_current_week d + 6]
      ∧ weekday (get_monday_of_current_week d) = 0
      ∧ get_monday_of_current_week d ≤ d
      ∧ d - get_monday_of_current_week d ≤ 6
      ∧ (weekday d = 0 → get_monday_of_current_week d = d) := by
  unfold days_of_week get_monday_of_current_week weekday
  refine ⟨?_, by omega, by omega, by omega, fun h => by omega⟩
  simp [List.range_succ]

/-- Witness for C2 at the ordinal 8, a Monday: the window starts at the
reference date itself. -/
theorem current_week_window_seven_days_w :
    get_monday_of_current_week 8 = 8 ∧ days_of_week 8 = [8, 9, 10, 11, 12, 13, 14] :=
  ⟨(current_week_window_seven_days 8).2.2.2.2 (by decide), by decide⟩

/-- C3: the URL built for a date is the fixed template with the date
substituted at its single substitution point, formatted month/day/year in
plain decimal; for 2024-03-05 the URL contains the fragment date=3/5/2024&
verbatim. -/
theorem build_url_for_date_fragment (dt : Date) :
    (∃ p s : String, build_url_for_date dt
        = p ++ ("date=" ++ toString dt.month ++ "/" ++ toString dt.day ++ "/"
            ++ toString dt.year ++ "&") ++ s)
      ∧ (∃ p s : String,
          build_url_for_date ⟨2024, 3, 5⟩ = p ++ "date=3/5/2024&" ++ s) := by
  constructor
  · refine ⟨"https://ws-edt-cd.wigorservices.net/WebPsDyn.aspx?action=posEDTLMS&serverID=C&Tel=lelia.kozan&",
      "hashURL=...", ?_⟩
    show URL_TEMPLATE_PRE ++ date_str dt ++ URL_TEMPLATE_POST = _
    rw [show URL_TEMPLATE_PRE
          = "https://ws-edt-cd.wigorservices.net/WebPsDyn.aspx?action=posEDTLMS&serverID=C&Tel=lelia.kozan&"
            ++ "date=" from rfl,
        show URL_TEMPLATE_POST = "&" ++ "hashURL=..." from rfl, date_str]
    simp [← String.append_assoc]
    conv_rhs => rw [String.append_assoc _ "&" "hashURL=..."]
    rfl
  · exact ⟨"https://ws-edt-cd.wigorservices.net/WebPsDyn.aspx?action=posEDTLMS&serverID=C&Tel=lelia.kozan&",
      "hashURL=...", by decide⟩

/-- C4: a row carrying course name, start time 08:00, end time 09:30, room
B204, instructor Dr. X and a meeting-link anchor with the given href yields
exactly one record reproducing all five values, and main attaches the
supplied date to that record, as it does to every record of the page. -/
theorem parse_courses_full_row (d : String) (cs : List Cours) :
    parse_courses [exRowFull]
        = [⟨"HEP COOPERATION", "08:00", "09:30", "B204", "Dr. X", "https://teams.example/x"⟩]
      ∧ attach_date "2024-03-04" (parse_courses [exRowFull])
          = [⟨"2024-03-04", "HEP COOPERATION", "08:00", "09:30", "B204", "Dr. X",
              "https://teams.example/x"⟩]
      ∧ (∀ c ∈ attach_date d cs, c.date = d) := by
  refine ⟨by decide, by decide, ?_⟩
  intro c hc
  simp only [attach_date, List.mem_map] at hc
  obtain ⟨x, -, rfl⟩ := hc
  rfl

/-- Witness for C4: the date attached to the record extracted from the full
example row is the supplied date. -/
theorem parse_courses_full_row_w :
    (⟨"2024-03-04", "HEP COOPERATION", "08:00", "09:30", "B204", "Dr. X",
        "https://teams.example/x"⟩ : CoursD).date = "2024-03-04" :=
  (parse_courses_full_row "2024-03-04" (parse_courses [exRowFull])).2.2 _ (by decide)

/-- C5: for every row with a course-name cell, extraction yields a record,
and the absence of the room, start-time, end-time or instructor cell, or of
the meeting-link anchor, independently yields the empty string in the
corresponding field; no absence raises an error. -/
theorem parse_row_missing_subelements (r td : Node)
    (hc : selectOne (hasTagClass CSS_COURS.1 CSS_COURS.2) r = some td) :
    ∃ c : Cours, parse_row r = some c
      ∧ (selectOne (hasTagClass CSS_SALLE.1 CSS_SALLE.2) r = none → c.salle = "")
      ∧ (selectOne (hasTagClass CSS_DEBUT.1 CSS_DEBUT.2) r = none → c.heure_debut = "")
      ∧ (selectOne (hasTagClass CSS_FIN.1 CSS_FIN.2) r = none → c.heure_fin = "")
      ∧ (selectOne (hasTagClass CSS_PROF.1 CSS_PROF.2) r = none → c.prof = "")
      ∧ (selectTeams r = none → c.teams = "") := by
  refine ⟨row_record r, parse_row_eq_some r td hc, ?_, ?_, ?_, ?_, ?_⟩ <;>
    intro h <;> simp [row_record, parse_row, hc, h]

/-- Witness for C5 at the row holding only a course-name cell: all five
fields of its record are the empty string. -/
theorem parse_row_missing_subelements_w :
    (parse_row exRowOnlyName).map
        (fun c => (c.salle, c.heure_debut, c.heure_fin, c.prof, c.teams))
      = some ("", "", "", "", "") := by
  obtain ⟨c, hc, h1, h2, h3, h4, h5⟩ :=
    parse_row_missing_subelements exRowOnlyName (tdCase "HEP COOPERATION") rfl
  simp [hc, h1 rfl, h2 rfl, h3 rfl, h4 rfl, h5 rfl]

/-- C6: the printed report is one header line followed by exactly one line
per record, in the order the records were produced, with no sorting,
grouping, filtering or deduplication; in the two-day scenario where the
first page yields two course rows and the second none, the report is the
header plus exactly two lines, both carrying the first date. -/
theorem report_one_line_per_record (days : List (String × List Node)) :
    report (all_cours_week days)
        = report_header
            :: (days.flatMap fun dh => (attach_date dh.1 (parse_courses dh.2)).map format_line)
      ∧ (report (all_cours_week days)).length = 1 + (all_cours_week days).length
      ∧ all_cours_week [("2025-01-06", exDocTwoRows), ("2025-01-07", exDocNoCourse)]
          = [⟨"2025-01-06", "Maths", "", "", "", "", ""⟩,
             ⟨"2025-01-06", "Physique", "", "", "", "", ""⟩]
      ∧ report (all_cours_week [("2025-01-06", exDocTwoRows), ("2025-01-07", exDocNoCourse)])
          = [report_header,
             format_line ⟨"2025-01-06", "Maths", "", "", "", "", ""⟩,
             format_line ⟨"2025-01-06", "Physique", "", "", "", "", ""⟩] := by
  refine ⟨?_, ?_, by decide, by decide⟩
  · simp [report, all_cours_week, List.map_flatMap]
  · simp [report]
    omega

/-- C7: extraction is deterministic, two applications of parse_courses to
identical markup yield identical ordered record sequences. -/
theorem parse_courses_deterministic (h1 h2 : List Node) (h : h1 = h2) :
    parse_courses h1 = parse_courses h2 :=
  congrArg parse_courses h

/-- Witness for C7 at the two-row example page. -/
theorem parse_courses_deterministic_w :
    parse_courses exDocTwoRows = parse_courses exDocTwoRows :=
  parse_courses_deterministic exDocTwoRows exDocTwoRows rfl

/-- C8: if the login steps or any per-day fetch raises, the run aborts
printing nothing, not even the header, and the explicit browser-close step
is not executed; the close step runs exactly on the success path. -/
theorem run_main_abort_behavior (login : Except String Unit)
    (fetch : String → Except String (List Node)) (days : List String) :
    ((login.isOk = false ∨ (fetch_week fetch days).isOk = false) →
        (run_main login fetch days).printed = []
          ∧ (run_main login fetch days).browser_closed = false
          ∧ (run_main login fetch days).exit_ok = false)
      ∧ ((run_main login fetch days).browser_closed = true
          ↔ login.isOk = true ∧ (fetch_week fetch days).isOk = true) := by
  unfold run_main
  cases login <;> cases hf : fetch_week fetch days <;>
    simp [Except.isOk, Except.toBool, hf]

/-- Witness for C8: with a successful login, a first day fetched with two
course rows and a second day that raises, nothing is printed and the close
step is skipped. -/
theorem run_main_abort_behavior_w :
    (run_main (.ok ()) exFetch ["2025-01-06", "2025-01-07"]).printed = []
      ∧ (run_main (.ok ()) exFetch ["2025-01-06", "2025-01-07"]).browser_closed = false := by
  have h := (run_main_abort_behavior (.ok ()) exFetch ["2025-01-06", "2025-01-07"]).1
    (Or.inr (by decide))
  exact ⟨h.1, h.2.1⟩

/-- C9 counterexample: a row whose course-name cell is present but has no
contents is not skipped; it produces one record with empty name, refuting
the claim that such a row yields no record. -/
theorem parse_row_empty_name_cex :
    getTextNode (Node.elem "td" ["TCase"] [] []) = ""
      ∧ parse_courses [exRowEmptyName] = [⟨"", "", "", "", "", ""⟩] := by
  decide

/-- C9 amended: a row whose course-name cell is present but empty still
produces exactly one record, whose name field is the empty string; mere
presence of the course-name cell decides inclusion. -/
theorem parse_row_empty_name_included (r td : Node)
    (hc : selectOne (hasTagClass CSS_COURS.1 CSS_COURS.2) r = some td)
    (hemp : getTextNode td = "") :
    ∃ c : Cours, parse_row r = some c ∧ c.nom_cours = "" := by
  refine ⟨row_record r, parse_row_eq_some r td hc, ?_⟩
  simp [row_record, parse_row, hc, hemp]

/-- Witness for C9 at the empty-name-cell row. -/
theorem parse_row_empty_name_included_w :
    (parse_row exRowEmptyName).map Cours.nom_cours = some "" := by
  obtain ⟨c, hc, hn⟩ :=
    parse_row_empty_name_included exRowEmptyName (.elem "td" ["TCase"] [] []) rfl rfl
  simp [hc, hn]

/-- C10: when the meeting-link anchor matched by the selector is present
but carries no href attribute, extraction does not raise and the record's
meeting-link field is the empty string, as when the anchor is absent. -/
theorem parse_row_anchor_without_href (r td a : Node)
    (hc : selectOne (hasTagClass CSS_COURS.1 CSS_COURS.2) r = some td)
    (ha : selectTeams r = some a)
    (hh : getAttr "href" a = none) :
    ∃ c : Cours, parse_row r = some c ∧ c.teams = "" := by
  refine ⟨row_record r, parse_row_eq_some r td hc, ?_⟩
  simp [row_record, parse_row, hc, ha, hh]

/-- Witness for C10 at the row whose anchor has no href. -/
theorem parse_row_anchor_without_href_w :
    (parse_row exRowNoHref).map Cours.teams = some "" := by
  obtain ⟨c, hc, ht⟩ := parse_row_anchor_without_href exRowNoHref
    (tdCase "HEP COOPERATION") (.elem "a" [] [] [.text "Teams"]) rfl rfl rfl
  simp [hc, ht]

end FetchEdt
